import Mathlib

/-!
Verification of the gemini protocol library (request/response codec,
certificate pool, known-hosts trust verifier) against its specification.

The Go source is shallowly embedded: byte slices become `List Nat`
(each element a byte value < 256 where it matters), strings become
`List Char` or `List Nat` depending on how the source manipulates them,
`time.Time` becomes `Int` (the zero value of `time.Time` is modelled by
`0`, matching `IsZero`), maps become functions into `Option`, and Go's
nil-vs-non-nil distinctions for slices, maps and interfaces are kept as
`Option` wrappers wherever the source branches on them.
-/

namespace Gemini

/-- Sentinel errors of package gemini (gemini.go).  Go wraps these with
`fmt.Errorf("%w: ...")`; claims only depend on the wrapped sentinel, so
messages are not modelled. -/
inductive GErr where
  | ErrCert
  | ErrFlush
  | ErrHeader
  | ErrRead
  | ErrRequest
  deriving DecidableEq, Repr

/-- MaxMeta constant from gemini.go. -/
def MaxMeta : Nat := 1024

/-- MaxURL constant from gemini.go. -/
def MaxURL : Nat := 1024

/-- Embedding of the Go `Response` struct (response.go): status and meta
from the embedded `responseHeader`, plus body, the two mode flags, the
reader and the writer.

`body = none` models a nil byte slice (the source branches on
`r.body != nil`).  `reader = none` models a nil `io.Reader`; `some l`
models a reader with `l` bytes remaining.  `writer = none` models a nil
`bytesWriter`; `writer = some none` models a fresh `bytes.Buffer` whose
internal slice is still nil (its `Bytes()` returns nil); `writer =
some (some l)` models a buffer holding `l`. -/
structure Response where
  status : Int
  meta : List Nat
  body : Option (List Nat)
  read : Bool
  flushed : Bool
  reader : Option (List Nat)
  writer : Option (Option (List Nat))
  deriving DecidableEq, Repr

/-- Zero value `var r gemini.Response`. -/
def emptyResponse : Response :=
  { status := 0, meta := [], body := none, read := false, flushed := false,
    reader := none, writer := none }

/-- fastAtoi from response.go: `Status((10 * (b[0] - '0')) + (b[1] - '0'))`.
All arithmetic happens on Go `byte` (uint8), i.e. modulo 256; the final
value is converted to `Status` (an `int`). -/
def fastAtoi (b0 b1 : Nat) : Int :=
  (((10 * ((b0 + 208) % 256)) % 256 + (b1 + 208) % 256) % 256 : Nat)

/-- bytes.Index(buf, []byte("\x0d\x0a")): index of the first occurrence
of the two-byte CRLF sequence, `none` when absent. -/
def indexCRLF : List Nat → Option Nat
  | [] => none
  | a :: l =>
    if a = 13 ∧ l.head? = some 10 then some 0
    else (indexCRLF l).map (· + 1)

/-- ServerPrepare from response.go: installs a fresh `bytes.Buffer` as
the writer. -/
def serverPrepare (r : Response) : Response :=
  { r with writer := some none }

/-- NewResponse from response.go: validates meta length (≤ 1024 bytes)
and then status (∈ [10,99]); on success returns a response holding a
copy of the meta bytes with a prepared writer.  On failure the returned
response pointer is nil, modelled by `Except.error`. -/
def NewResponse (status : Int) (meta : List Nat) : Except GErr Response :=
  if meta.length > 1024 then
    .error .ErrHeader
  else if status < 10 ∨ 100 ≤ status then
    .error .ErrHeader
  else
    .ok (serverPrepare
      { status := status, meta := meta, body := none, read := false,
        flushed := false, reader := none, writer := none })

/-- Reset from response.go.  The source loops a `switch` via `goto`,
clearing in turn `Status`, `meta`, `body`, `read`, `reader` and
`writer` until all are zero; this is its fixpoint.  The `flushed`
field has no case in the switch and is left untouched. -/
def reset (r : Response) : Response :=
  { status := 0, meta := [], body := none, read := false,
    flushed := r.flushed, reader := none, writer := none }

/-- Write from response.go: rejected with ErrFlush after a flush,
otherwise appends to the writer's buffer and reports the byte count.
A nil writer would be a nil-interface dereference (Go panic), modelled
by returning the response unchanged with no count and no error code
reachable; the claims never exercise that path, so we surface it as a
`none` writer left in place with count 0 and no error distinct from the
panic marker below. -/
def write (r : Response) (b : List Nat) : Response × Nat × Option GErr :=
  if r.flushed then
    (r, 0, some .ErrFlush)
  else
    match r.writer with
    | none => (r, 0, none)
    | some buf => ({ r with writer := some (some (buf.getD [] ++ b)) }, b.length, none)

/-- WriteString from response.go: same body as Write, over the bytes of
the string. -/
def writeString (r : Response) (s : List Nat) : Response × Nat × Option GErr :=
  if r.flushed then
    (r, 0, some .ErrFlush)
  else
    match r.writer with
    | none => (r, 0, none)
    | some buf => ({ r with writer := some (some (buf.getD [] ++ s)) }, s.length, none)

/-- Flush from response.go: sets the flushed flag, freezes the writer's
bytes as the body (`Bytes()` of an untouched buffer is a nil slice) and
installs a reader over them.  A nil writer panics in Go, modelled by
`none`. -/
def flush (r : Response) : Option Response :=
  match r.writer with
  | none => none
  | some buf =>
    some { r with flushed := true, body := buf,
                  reader := some (buf.getD []) }

/-- Read from response.go: sets the `read` flag, then reads from the
reader (nil reader panics in Go, modelled by `none`).  Returns the new
state, the bytes delivered, and whether EOF was reported. -/
def readResp (r : Response) (k : Nat) : Option (Response × List Nat × Bool) :=
  match r.reader with
  | none => none
  | some rem =>
    some ({ r with read := true, reader := some (rem.drop k) },
          rem.take k, rem.isEmpty)

/-- Body from response.go: if the body slice is non-nil return it; else
if a reader exists, fail with ErrRead when Read was already called,
otherwise drain the reader into the body (ioutil.ReadAll returns a
non-nil slice) and return it; with neither, return the empty string. -/
def bodyAcc (r : Response) : Response × List Nat × Option GErr :=
  match r.body with
  | some bs => (r, bs, none)
  | none =>
    match r.reader with
    | some rem =>
      if r.read then
        (r, [], some .ErrRead)
      else
        ({ r with body := some rem, reader := some [] }, rem, none)
    | none => (r, [], none)

/-- FromReader from response.go.  The single `reader.Read(buf)` call on
a buffer of MaxMeta+5 bytes is modelled as delivering
`min (MaxMeta+5) input.length` bytes at once, which is what the
`bytes.Reader` used by the tests does.  On success the remainder of the
window concatenated with the rest of the stream becomes the body
reader.  Returns the (partially) mutated response and the error. -/
def fromReader (r : Response) (input : List Nat) : Response × Option GErr :=
  let n := min (MaxMeta + 5) input.length
  let buf := input.take n
  if n < 4 then
    (r, some .ErrHeader)
  else
    let st := fastAtoi (buf.getD 0 0) (buf.getD 1 0)
    let r := { r with status := st }
    if 99 < st ∨ st < 10 then
      (r, some .ErrHeader)
    else if buf.getD 2 0 ≠ 32 then
      (r, some .ErrHeader)
    else
      match indexCRLF (buf.drop 3) with
      | none => (r, some .ErrHeader)
      | some i =>
        let r := { r with meta := (buf.drop 3).take i }
        let rest := buf.drop (i + 3 + 2)
        ({ r with reader := some (rest ++ input.drop n) }, none)

/-- Digit accumulator for strconv.Itoa: most-significant-first decimal
digits of `n` prepended to `acc`, with explicit fuel (strconv's loop
runs while the value is non-zero). -/
def natDigits : Nat → Nat → List Nat → List Nat
  | 0, _, acc => acc
  | fuel + 1, n, acc =>
    if n = 0 then acc else natDigits fuel (n / 10) ((n % 10 + 48) :: acc)

/-- Decimal byte representation of a natural number (strconv.Itoa on a
non-negative value). -/
def itoaNat (n : Nat) : List Nat :=
  if n = 0 then [48] else natDigits n n []

/-- strconv.Itoa over Go int: a leading minus sign for negatives. -/
def itoaInt (n : Int) : List Nat :=
  if n < 0 then 45 :: itoaNat n.natAbs else itoaNat n.toNat

/-- Go `copy(dst, src)`: overwrites the first `min` bytes of dst,
keeping dst's length. -/
def listCopy (dst src : List Nat) : List Nat :=
  src.take dst.length ++ dst.drop (min src.length dst.length)

/-- Go `copy(dst[i:], src)` followed by rejoining the prefix. -/
def listCopyAt (dst : List Nat) (i : Nat) (src : List Nat) : List Nat :=
  dst.take i ++ listCopy (dst.drop i) src

/-- Header from response.go: a fresh slice of len(meta)+5 zero bytes;
copy in Itoa(status); force byte 2 to a space; copy the meta at offset
3 and the CRLF terminator at offset len(meta)+3. -/
def headerBytes (r : Response) : List Nat :=
  let out0 := List.replicate (r.meta.length + 5) 0
  let out1 := listCopy out0 (itoaInt r.status)
  let out2 := out1.set 2 32
  let out3 := listCopyAt out2 3 r.meta
  listCopyAt out3 (r.meta.length + 3) [13, 10]

/-! Support lemmas for the codec theorems. -/

theorem natDigits_zero (f : Nat) (acc : List Nat) : natDigits f 0 acc = acc := by
  cases f <;> simp [natDigits]

theorem itoaNat_two_digits (n : Nat) (h1 : 10 ≤ n) (h2 : n ≤ 99) :
    itoaNat n = [n / 10 + 48, n % 10 + 48] := by
  obtain ⟨k, rfl⟩ : ∃ k, n = k + 2 := ⟨n - 2, by omega⟩
  unfold itoaNat
  rw [if_neg (by omega)]
  show natDigits (k + 1 + 1) (k + 2) [] = _
  rw [natDigits, if_neg (by omega)]
  rw [natDigits, if_neg (by omega)]
  rw [show (k + 2) / 10 / 10 = 0 by omega, natDigits_zero]
  rw [show (k + 2) / 10 % 10 = (k + 2) / 10 by omega]

theorem fastAtoi_digits (n : Nat) (h : n ≤ 99) :
    fastAtoi (n / 10 + 48) (n % 10 + 48) = (n : Int) := by
  unfold fastAtoi
  norm_cast
  omega

theorem indexCRLF_append (meta : List Nat) (h : indexCRLF meta = none) :
    indexCRLF (meta ++ [13, 10]) = some meta.length := by
  induction meta with
  | nil => rfl
  | cons a l ih =>
    simp only [indexCRLF] at h
    have hcond : ¬ (a = 13 ∧ l.head? = some 10) := by
      intro hc
      rw [if_pos hc] at h
      exact Option.noConfusion h
    rw [if_neg hcond] at h
    have hrec : indexCRLF l = none := by
      cases hx : indexCRLF l with
      | none => rfl
      | some v => rw [hx] at h; exact absurd h (by simp)
    simp only [List.cons_append, indexCRLF, List.append_eq]
    have hcond2 : ¬ (a = 13 ∧ (l ++ [13, 10]).head? = some 10) := by
      cases l with
      | nil => simp
      | cons b l2 =>
        intro hc
        exact hcond (by simpa using hc)
    rw [if_neg hcond2, ih hrec]
    simp

theorem headerBytes_shape (r : Response) (h1 : 10 ≤ r.status) (h2 : r.status ≤ 99) :
    headerBytes r =
      (r.status.toNat / 10 + 48) :: (r.status.toNat % 10 + 48) :: 32 ::
        (r.meta ++ [13, 10]) := by
  have hitoa : itoaInt r.status =
      [r.status.toNat / 10 + 48, r.status.toNat % 10 + 48] := by
    unfold itoaInt
    rw [if_neg (by omega)]
    exact itoaNat_two_digits _ (by omega) (by omega)
  set a := r.status.toNat / 10 + 48 with ha
  set b := r.status.toNat % 10 + 48 with hb
  set m := r.meta.length with hm
  unfold headerBytes
  rw [hitoa, ← hm]
  dsimp only
  have step1 : listCopy (List.replicate (m + 5) 0) [a, b] =
      a :: b :: List.replicate (m + 3) 0 := by
    unfold listCopy
    rw [List.length_replicate]
    rw [List.take_of_length_le (by simp)]
    have : min ([a, b].length) (m + 5) = 2 := by simp
    rw [this, List.drop_replicate]
    simp [List.append_eq]
  rw [step1]
  have step2 : (a :: b :: List.replicate (m + 3) 0).set 2 32 =
      a :: b :: 32 :: List.replicate (m + 2) 0 := by
    rw [show m + 3 = (m + 2) + 1 by omega, List.replicate_succ]
    rfl
  rw [step2]
  have step3 : listCopyAt (a :: b :: 32 :: List.replicate (m + 2) 0) 3 r.meta =
      a :: b :: 32 :: (r.meta ++ [0, 0]) := by
    unfold listCopyAt listCopy
    have hdrop : (a :: b :: 32 :: List.replicate (m + 2) 0).drop 3 =
        List.replicate (m + 2) 0 := rfl
    have htake : (a :: b :: 32 :: List.replicate (m + 2) 0).take 3 = [a, b, 32] := rfl
    rw [hdrop, htake, List.length_replicate]
    rw [List.take_of_length_le (by omega)]
    have hmin : min r.meta.length (m + 2) = m := by omega
    rw [hmin, List.drop_replicate]
    have : m + 2 - m = 2 := by omega
    rw [this]
    simp
  rw [step3]
  unfold listCopyAt listCopy
  have hassoc : a :: b :: 32 :: (r.meta ++ [0, 0]) =
      (a :: b :: 32 :: r.meta) ++ [0, 0] := by simp
  rw [hassoc]
  have hlen : (a :: b :: 32 :: r.meta).length = m + 3 := by simp [hm]
  rw [List.take_left' hlen, List.drop_left' hlen]
  simp

theorem fromReader_header (r0 : Response) (st : Int) (meta : List Nat)
    (h1 : 10 ≤ st) (h2 : st ≤ 99) (h3 : meta.length ≤ 1024)
    (h4 : indexCRLF meta = none) :
    fromReader r0
        ((st.toNat / 10 + 48) :: (st.toNat % 10 + 48) :: 32 :: (meta ++ [13, 10])) =
      ({ r0 with status := st, meta := meta, reader := some [] }, none) := by
  have hlen : ((st.toNat / 10 + 48) :: (st.toNat % 10 + 48) :: 32 ::
      (meta ++ [13, 10])).length = meta.length + 5 := by simp
  unfold fromReader MaxMeta
  rw [hlen]
  have hmin : min (1024 + 5) (meta.length + 5) = meta.length + 5 := by omega
  rw [hmin]
  dsimp only
  rw [if_neg (by omega)]
  rw [List.take_of_length_le (by rw [hlen])]
  have hg0 : ((st.toNat / 10 + 48) :: (st.toNat % 10 + 48) :: 32 ::
      (meta ++ [13, 10])).getD 0 0 = st.toNat / 10 + 48 := rfl
  have hg1 : ((st.toNat / 10 + 48) :: (st.toNat % 10 + 48) :: 32 ::
      (meta ++ [13, 10])).getD 1 0 = st.toNat % 10 + 48 := rfl
  have hg2 : ((st.toNat / 10 + 48) :: (st.toNat % 10 + 48) :: 32 ::
      (meta ++ [13, 10])).getD 2 0 = 32 := rfl
  rw [hg0, hg1, hg2]
  have hfa : fastAtoi (st.toNat / 10 + 48) (st.toNat % 10 + 48) = st := by
    rw [fastAtoi_digits st.toNat (by omega)]
    omega
  rw [hfa]
  rw [if_neg (by omega), if_neg (by simp)]
  have hdrop3 : ((st.toNat / 10 + 48) :: (st.toNat % 10 + 48) :: 32 ::
      (meta ++ [13, 10])).drop 3 = meta ++ [13, 10] := rfl
  rw [hdrop3, indexCRLF_append meta h4]
  dsimp only
  rw [List.take_left]
  have hdropAll : ((st.toNat / 10 + 48) :: (st.toNat % 10 + 48) :: 32 ::
      (meta ++ [13, 10])).drop (meta.length + 3 + 2) = [] := by
    apply List.drop_eq_nil_of_le
    rw [hlen]
  have hdropN : ((st.toNat / 10 + 48) :: (st.toNat % 10 + 48) :: 32 ::
      (meta ++ [13, 10])).drop (meta.length + 5) = [] := by
    apply List.drop_eq_nil_of_le
    rw [hlen]
  rw [hdropAll]
  simp [hdropN]

/-- Claim C3 counterexample: with status 20 and the four-byte meta
"a\x0d\x0ab" (length ≤ 1024), NewResponse succeeds, yet re-parsing the
serialized header recovers meta [97] instead of the original: the claim
as stated fails for metas containing the CRLF sequence. -/
theorem claim_C3_counterexample :
    NewResponse 20 [97, 13, 10, 98] =
      Except.ok { status := 20, meta := [97, 13, 10, 98], body := none,
                  read := false, flushed := false, reader := none,
                  writer := some none } ∧
    (fromReader emptyResponse
        (headerBytes { status := 20, meta := [97, 13, 10, 98], body := none,
                       read := false, flushed := false, reader := none,
                       writer := some none })).1.meta = [97] ∧
    [97] ≠ [97, 13, 10, 98] := by
  refine ⟨rfl, by decide, by decide⟩

/-- Claim C3 (amended): for status in [10,99] and meta of byte length at
most 1024 that does not contain the CRLF sequence, NewResponse then
Header then FromReader yields the same status and the same meta, with
no error. -/
theorem claim_C3_roundtrip (st : Int) (meta : List Nat) (r r0 : Response)
    (h1 : 10 ≤ st) (h2 : st ≤ 99) (h3 : meta.length ≤ 1024)
    (h4 : indexCRLF meta = none)
    (hok : NewResponse st meta = Except.ok r) :
    (fromReader r0 (headerBytes r)).1.status = st ∧
    (fromReader r0 (headerBytes r)).1.meta = meta ∧
    (fromReader r0 (headerBytes r)).2 = none := by
  have hr : r = { status := st, meta := meta, body := none, read := false,
                  flushed := false, reader := none, writer := some none } := by
    unfold NewResponse serverPrepare at hok
    rw [if_neg (by omega), if_neg (by omega)] at hok
    exact (Except.ok.inj hok).symm
  have hshape := headerBytes_shape r (by rw [hr]; exact h1) (by rw [hr]; exact h2)
  rw [hr] at hshape
  dsimp only at hshape
  rw [hr, hshape]
  rw [fromReader_header r0 st meta h1 h2 h3 h4]
  exact ⟨rfl, rfl, rfl⟩

/-- Claim C3 witness: a concrete instantiation of the round-trip with
status 20 and meta "t". -/
theorem claim_C3_witness :
    (fromReader emptyResponse
        (headerBytes { status := 20, meta := [116], body := none,
                       read := false, flushed := false, reader := none,
                       writer := some none })).1.status = 20 ∧
    (fromReader emptyResponse
        (headerBytes { status := 20, meta := [116], body := none,
                       read := false, flushed := false, reader := none,
                       writer := some none })).1.meta = [116] ∧
    (fromReader emptyResponse
        (headerBytes { status := 20, meta := [116], body := none,
                       read := false, flushed := false, reader := none,
                       writer := some none })).2 = none :=
  claim_C3_roundtrip 20 [116] _ emptyResponse (by decide) (by decide)
    (by decide) (by decide) rfl

/-- Claim C4: Reset does not clear the `flushed` field (it has no case
in the reset switch), so after create, write, flush, Reset and
ServerPrepare, a Write is still rejected with ErrFlush and a count of
0 — not accepted as on a freshly allocated instance. -/
theorem claim_C4_reset_keeps_flushed :
    (NewResponse 20 [109]).map (fun r1 =>
      (flush (write r1 [120]).1).map (fun r3 =>
        (write (serverPrepare (reset r3)) [121]).2)) =
      Except.ok (some (0, some GErr.ErrFlush)) := rfl

/-- Claim C5 counterexample: the input "Ka x\x0d\x0a" has a non-digit in
each of its first two bytes (75 and 97 are outside [48,57]), yet
FromReader succeeds with no error because the wrapping 8-bit arithmetic
of fastAtoi maps the pair to status 63 ∈ [10,99]. -/
theorem claim_C5_counterexample :
    (fromReader emptyResponse [75, 97, 32, 120, 13, 10]).2 = none ∧
    (fromReader emptyResponse [75, 97, 32, 120, 13, 10]).1.status = 63 ∧
    ¬ (48 ≤ 75 ∧ 75 ≤ 57) ∧ ¬ (48 ≤ 97 ∧ 97 ≤ 57) := by
  refine ⟨by decide, by decide, by decide, by decide⟩

/-- Claim C5 (amended): for an input of at least four bytes, FromReader
fails with ErrHeader whenever the status computed from the first two
bytes by the wrapping 8-bit conversion lies outside [10,99], or the
third byte is not a space; a not-both-digits prefix that aliases into
[10,99] is accepted instead. -/
theorem claim_C5_header_check (r : Response) (b0 b1 b2 b3 : Nat)
    (rest : List Nat)
    (h : fastAtoi b0 b1 < 10 ∨ 99 < fastAtoi b0 b1 ∨ b2 ≠ 32) :
    (fromReader r (b0 :: b1 :: b2 :: b3 :: rest)).2 = some GErr.ErrHeader := by
  unfold fromReader
  have hmin : min (MaxMeta + 5) (b0 :: b1 :: b2 :: b3 :: rest).length =
      min 1025 rest.length + 4 := by
    simp [MaxMeta]
    omega
  rw [hmin]
  dsimp only
  rw [if_neg (by omega)]
  have htake : (b0 :: b1 :: b2 :: b3 :: rest).take (min 1025 rest.length + 4) =
      b0 :: b1 :: b2 :: b3 :: rest.take (min 1025 rest.length) := by
    simp [List.take_succ_cons]
  rw [htake]
  have hg0 : (b0 :: b1 :: b2 :: b3 :: rest.take (min 1025 rest.length)).getD 0 0
      = b0 := rfl
  have hg1 : (b0 :: b1 :: b2 :: b3 :: rest.take (min 1025 rest.length)).getD 1 0
      = b1 := rfl
  have hg2 : (b0 :: b1 :: b2 :: b3 :: rest.take (min 1025 rest.length)).getD 2 0
      = b2 := rfl
  rw [hg0, hg1, hg2]
  by_cases hr : 99 < fastAtoi b0 b1 ∨ fastAtoi b0 b1 < 10
  · rw [if_pos hr]
  · rw [if_neg hr]
    have hb2 : b2 ≠ 32 := by
      rcases h with h | h | h
      · exact absurd (Or.inr h) hr
      · exact absurd (Or.inl h) hr
      · exact h
    rw [if_pos hb2]

/-- Claim C5 witness: "00" computes status 0 < 10, so the parse fails
with ErrHeader. -/
theorem claim_C5_witness :
    (fastAtoi 48 48 < 10 ∨ 99 < fastAtoi 48 48 ∨ (48 : Nat) ≠ 32) ∧
    (fromReader emptyResponse [48, 48, 48, 120]).2 = some GErr.ErrHeader :=
  ⟨by decide, claim_C5_header_check emptyResponse 48 48 48 120 [] (by decide)⟩

/-- Claim C6: NewResponse rejects any status outside [10,99] and any
meta longer than 1024 bytes with the ErrHeader sentinel, returning no
response object (nil, modelled by `Except.error`). -/
theorem claim_C6_newResponse_rejects (st : Int) (meta : List Nat) :
    ((st < 10 ∨ 99 < st) → NewResponse st meta = Except.error GErr.ErrHeader) ∧
    (1024 < meta.length → NewResponse st meta = Except.error GErr.ErrHeader) := by
  constructor
  · intro h
    unfold NewResponse
    by_cases hm : meta.length > 1024
    · rw [if_pos hm]
    · rw [if_neg hm, if_pos (by omega)]
  · intro h
    unfold NewResponse
    rw [if_pos h]

/-- Claim C6 witness: status 9 is rejected, and a 1025-byte meta is
rejected. -/
theorem claim_C6_witness :
    NewResponse 9 [] = Except.error GErr.ErrHeader ∧
    NewResponse 20 (List.replicate 1025 0) = Except.error GErr.ErrHeader :=
  ⟨(claim_C6_newResponse_rejects 9 []).1 (Or.inl (by norm_num)),
   (claim_C6_newResponse_rejects 20 (List.replicate 1025 0)).2
     (by rw [List.length_replicate]; norm_num)⟩

/-- Claim C7 counterexample: a server response that was written and
flushed has its body materialized; after a Read call, Body still
returns the full body with no ErrRead, so the claim as stated over
every Response fails. -/
theorem claim_C7_counterexample :
    (NewResponse 20 [109]).map (fun r1 =>
      (flush (write r1 [104, 105]).1).map (fun r3 =>
        (readResp r3 1).map (fun q =>
          (q.1.read, (bodyAcc q.1).2)))) =
      Except.ok (some (some (true, [104, 105], none))) := rfl

/-- Claim C7 (amended): for a response whose body slice is still nil
(not yet materialized by Flush or a prior Body call) and whose reader is
set, once Read has been called, Body fails with the ErrRead sentinel and
returns no body data. -/
theorem claim_C7_body_after_read (r : Response)
    (hb : r.body = none) (hr : r.reader.isSome) (hread : r.read = true) :
    bodyAcc r = (r, [], some GErr.ErrRead) := by
  obtain ⟨rem, hrem⟩ := Option.isSome_iff_exists.mp hr
  unfold bodyAcc
  rw [hb, hrem]
  dsimp only
  rw [if_pos hread]

/-- Claim C7 witness: a concrete consumer-side response after a Read. -/
theorem claim_C7_witness :
    bodyAcc { status := 20, meta := [], body := none, read := true,
              flushed := false, reader := some [104], writer := none } =
      ({ status := 20, meta := [], body := none, read := true,
         flushed := false, reader := some [104], writer := none },
       [], some GErr.ErrRead) :=
  claim_C7_body_after_read _ rfl rfl rfl

/-- Claim C8: once a response has been flushed, Write and WriteString
fail with ErrFlush, return count 0, and leave the whole response state
(including the accumulated buffer) unchanged. -/
theorem claim_C8_write_after_flush (r : Response) (b s : List Nat)
    (h : r.flushed = true) :
    write r b = (r, 0, some GErr.ErrFlush) ∧
    writeString r s = (r, 0, some GErr.ErrFlush) := by
  constructor
  · unfold write
    rw [if_pos h]
  · unfold writeString
    rw [if_pos h]

/-- Claim C8 witness: a concrete flushed response rejects both write
entry points. -/
theorem claim_C8_witness :
    write { status := 20, meta := [], body := some [1], read := false,
            flushed := true, reader := some [1], writer := some (some [1]) }
        [2, 3] =
      ({ status := 20, meta := [], body := some [1], read := false,
         flushed := true, reader := some [1], writer := some (some [1]) },
       0, some GErr.ErrFlush) ∧
    writeString { status := 20, meta := [], body := some [1], read := false,
                  flushed := true, reader := some [1],
                  writer := some (some [1]) }
        [4] =
      ({ status := 20, meta := [], body := some [1], read := false,
         flushed := true, reader := some [1], writer := some (some [1]) },
       0, some GErr.ErrFlush) :=
  claim_C8_write_after_flush _ [2, 3] [4] rfl

end Gemini

namespace Cert

/-! Embedding of package cert: the known-hosts trust verifier
(knownhosts.go) and the managed certificate pool (pool.go).
`time.Time` is modelled as `Int`; the zero value of `time.Time`
(`IsZero`) is `0`. -/

/-- An x509 certificate as consumed by the verifier: its raw DER bytes
and its NotAfter timestamp. -/
structure XCert where
  raw : List Nat
  notAfter : Int
  deriving DecidableEq, Repr

/-- Fingerprint from knownhosts.go: the base64 raw-std encoding of the
sha512 digest of the raw certificate bytes.  Digest plus encoding form
an injection from raw bytes to strings, and every claim depends only on
equality of fingerprints, so the composite is modelled as the identity
injection on the raw bytes. -/
def Fingerprint (c : XCert) : List Nat := c.raw

/-- Host record from knownhosts.go: expiry (zero value means no
expiry) and fingerprint. -/
structure Host where
  expiry : Int
  fingerprint : List Nat
  deriving DecidableEq, Repr

/-- State of a KnownHosts verifier: the in-memory map and the content
last persisted to the file at its path (the path string itself plays no
role in the verification logic). -/
structure KHState where
  hosts : String → Option Host
  file : Option (String → Option Host)

/-- Outcome of VerifyCert.  `trustErr` carries the two fingerprints the
wrapped ErrCert message names (stored first, found second);
`panicEmptyChain` models the out-of-range `certs[0]` access on an empty
chain. -/
inductive VResult where
  | ok
  | trustErr (stored found : List Nat)
  | panicEmptyChain
  deriving DecidableEq, Repr

/-- Predicate picking out the trust-error outcome (a wrapped
gemini.ErrCert). -/
def VResult.isTrust : VResult → Bool
  | .trustErr _ _ => true
  | _ => false

/-- Save from knownhosts.go: marshals the whole map and rewrites the
file.  Marshalling and WriteFile failures are I/O-environment events
and are not modelled (the write succeeds). -/
def save (s : KHState) : KHState :=
  { s with file := some s.hosts }

/-- VerifyCert from knownhosts.go.  The early error return fires only
when a record exists, `!(Expiry.IsZero() || Expiry.After(now))` holds
(that is, the record has a non-zero expiry that is not after `now`) and
the leaf fingerprint differs from the stored one; in every other case
the record for the host is overwritten with the leaf's NotAfter and
fingerprint and the whole map is saved. -/
def verifyCert (s : KHState) (host : String) (certs : List XCert)
    (now : Int) : KHState × VResult :=
  match certs with
  | [] => (s, .panicEmptyChain)
  | leaf :: _ =>
    match s.hosts host with
    | some val =>
      if ¬ (val.expiry = 0 ∨ now < val.expiry) ∧
          Fingerprint leaf ≠ val.fingerprint then
        (s, .trustErr val.fingerprint (Fingerprint leaf))
      else
        (save { s with hosts := (fun h =>
          if h = host then some ⟨leaf.notAfter, Fingerprint leaf⟩
          else s.hosts h) }, .ok)
    | none =>
      (save { s with hosts := (fun h =>
        if h = host then some ⟨leaf.notAfter, Fingerprint leaf⟩
        else s.hosts h) }, .ok)

/-- Claim C1: the expiry test in VerifyCert is inverted with respect to
its own comments.  At time 50, the stored record for "h" has expiry 100
(non-zero and in the future, hence NOT expired) and fingerprint [65];
the presented leaf has the different fingerprint [66]; yet VerifyCert
returns nil (no ErrCert trust error) and silently replaces the record
with the new fingerprint and the leaf's NotAfter. -/
theorem claim_C1_nonexpired_mismatch_repinned :
    (verifyCert ⟨fun h => if h = "h" then some ⟨100, [65]⟩ else none, none⟩
        "h" [⟨[66], 200⟩] 50).2 = VResult.ok ∧
    (verifyCert ⟨fun h => if h = "h" then some ⟨100, [65]⟩ else none, none⟩
        "h" [⟨[66], 200⟩] 50).1.hosts "h" = some ⟨200, [66]⟩ ∧
    Fingerprint ⟨[66], 200⟩ ≠ [65] ∧
    (0 : Int) ≠ 100 ∧ (50 : Int) < 100 := by
  refine ⟨by decide, by decide, by decide, by decide, by decide⟩

/-- Claim C10: whenever VerifyCert does not return a trust error, it
overwrites the stored record for the host with the leaf's fingerprint
and the leaf's NotAfter as the new expiry, and rewrites the whole
persisted file — whatever record (including one with zero expiry) was
there before. -/
theorem claim_C10_verify_overwrites_and_saves
    (hosts : String → Option Host) (file : Option (String → Option Host))
    (host : String) (leaf : XCert) (rest : List XCert) (now : Int)
    (h : ((verifyCert ⟨hosts, file⟩ host (leaf :: rest) now).2).isTrust
          = false) :
    (verifyCert ⟨hosts, file⟩ host (leaf :: rest) now).1.hosts host =
      some ⟨leaf.notAfter, Fingerprint leaf⟩ ∧
    (verifyCert ⟨hosts, file⟩ host (leaf :: rest) now).1.file =
      some ((verifyCert ⟨hosts, file⟩ host (leaf :: rest) now).1.hosts) := by
  unfold verifyCert at h ⊢
  dsimp only at h ⊢
  cases hv : hosts host with
  | none =>
    exact ⟨by simp [save], rfl⟩
  | some val =>
    rw [hv] at h
    dsimp only at h ⊢
    by_cases hc : ¬ (val.expiry = 0 ∨ now < val.expiry) ∧
        Fingerprint leaf ≠ val.fingerprint
    · rw [if_pos hc] at h
      exact absurd h (by simp [VResult.isTrust])
    · rw [if_neg hc]
      exact ⟨by simp [save], rfl⟩

/-- Claim C10 witness: a host with a zero-expiry (permanent-trust)
record and a different presented fingerprint is silently overwritten
and the file rewritten. -/
theorem claim_C10_witness :
    ((verifyCert ⟨fun h => if h = "p" then some ⟨0, [1]⟩ else none, none⟩
        "p" [⟨[2], 300⟩] 50).2).isTrust = false ∧
    (verifyCert ⟨fun h => if h = "p" then some ⟨0, [1]⟩ else none, none⟩
        "p" [⟨[2], 300⟩] 50).1.hosts "p" = some ⟨300, [2]⟩ ∧
    (verifyCert ⟨fun h => if h = "p" then some ⟨0, [1]⟩ else none, none⟩
        "p" [⟨[2], 300⟩] 50).1.file =
      some ((verifyCert ⟨fun h => if h = "p" then some ⟨0, [1]⟩ else none,
              none⟩ "p" [⟨[2], 300⟩] 50).1.hosts) := by
  have h := claim_C10_verify_overwrites_and_saves
    (fun h => if h = "p" then some ⟨0, [1]⟩ else none) none
    "p" ⟨[2], 300⟩ [] 50 (by decide)
  exact ⟨by decide, h.1, h.2⟩

/-! The certificate pool (pool.go). -/

/-- A pool certificate: its leaf NotAfter and whether the leaf parses
(a leaf that fails to parse counts as expired). -/
structure PCert where
  notAfter : Int
  parses : Bool
  deriving DecidableEq, Repr

/-- Pool state (pool.go): the in-memory cache — `none` models the nil
map that `NewStore` never initializes — and the on-disk key/cert pairs
indexed by name (`some` when `tls.LoadX509KeyPair` would succeed).
The directory path and the cached FileInfo list play no role in Get. -/
structure Pool where
  certs : Option (String → Option PCert)
  disk : String → Option PCert

/-- Validity length constant from pool.go (60 days). -/
def validLength : Int := 60 * 24 * 60 * 60

/-- expired from pool.go: true when the leaf cannot be parsed, else
when now is after NotAfter. -/
def expired (c : PCert) (now : Int) : Bool :=
  if c.parses then decide (c.notAfter < now) else true

/-- generate from pool.go: writes a fresh key and certificate (valid
from now for validLength) to disk under the given name.  It does NOT
touch the in-memory cache.  Crypto and file-system failures are
I/O-environment events and are not modelled (generation succeeds). -/
def generate (p : Pool) (name : String) (now : Int) : Pool :=
  { p with disk := fun n =>
      if n = name then some ⟨now + validLength, true⟩ else p.disk n }

/-- Outcome of a terminating Get: a certificate, an error return, or
the runtime panic from assigning into the nil cache map in `load`. -/
inductive GetRes where
  | ok (c : PCert)
  | err
  | panicNilMap
  deriving DecidableEq, Repr

/-- Get from pool.go, with explicit fuel for its self-recursion
(`none` means the recursion has not produced any outcome within `fuel`
steps).  Reading the nil map yields no entry; a successful load into
the nil map is the Go panic "assignment to entry in nil map". -/
def getFuel : Nat → Pool → String → Int → Option (Pool × GetRes)
  | 0, _, _, _ => none
  | fuel + 1, p, name, now =>
    match (p.certs.getD (fun _ => none)) name with
    | some cert =>
      if expired cert now = false then
        some (p, .ok cert)
      else
        getFuel fuel (generate p name now) name now
    | none =>
      match p.disk name with
      | some cert =>
        match p.certs with
        | none => some (p, .panicNilMap)
        | some m =>
          getFuel fuel
            { p with certs := some (fun n =>
                if n = name then some cert else m n) }
            name now
      | none =>
        getFuel fuel (generate p name now) name now

/-- Divergence of Get on a cached expired certificate: generate never
refreshes the cache, so the recursion re-reads the same expired entry
forever. -/
theorem getFuel_cached_expired_diverges (name : String) (c0 : PCert)
    (hpar : c0.parses = true) (now : Int) (hexp : c0.notAfter < now) :
    ∀ (fuel : Nat) (p : Pool) (m : String → Option PCert),
      p.certs = some m → m name = some c0 →
      getFuel fuel p name now = none := by
  intro fuel
  induction fuel with
  | zero => intro p m h1 h2; rfl
  | succ f ih =>
    intro p m h1 h2
    unfold getFuel
    rw [h1]
    dsimp only [Option.getD]
    rw [h2]
    have hexp2 : expired c0 now = true := by
      unfold expired
      rw [hpar]
      simp [hexp]
    dsimp only
    rw [hexp2, if_neg (by decide)]
    exact ih (generate p name now) m h1 h2

/-- Claim C2: Get does not satisfy the termination/freshness contract.
First conjunct: with a cached, parseable certificate whose NotAfter (0)
is before now (1), Get recurses forever for every amount of fuel,
because generate rewrites the disk artifacts but never the cache.
Second conjunct: on a fresh store (nil cache map, empty directory) the
generate-then-load path panics on the nil-map assignment instead of
returning the fresh certificate or an error. -/
theorem claim_C2_get_diverges :
    (∀ fuel : Nat,
      getFuel fuel
        ⟨some (fun n => if n = "a" then some ⟨0, true⟩ else none),
         fun _ => none⟩ "a" 1 = none) ∧
    (getFuel 2 ⟨none, fun _ => none⟩ "a" 1).map (fun q => q.2) =
      some GetRes.panicNilMap := by
  constructor
  · intro fuel
    exact getFuel_cached_expired_diverges "a" ⟨0, true⟩ rfl 1 (by norm_num)
      fuel _ _ rfl (by simp)
  · rfl

end Cert

namespace Req

/-! Embedding of Request.Canonicalize (request.go) over the parts of
net/url.URL it touches or reads: Scheme, Opaque, User, Host, Path
(Query and Fragment are carried along untouched). -/

/-- ASCII decimal digit test used by net/url's validOptionalPort. -/
def isDigitC (c : Char) : Bool :=
  decide ('0' ≤ c) && decide (c ≤ '9')

/-- Bracket stripping from net/url's splitHostPort:
`strings.HasPrefix(host, "[") && strings.HasSuffix(host, "]")` removes
the first and last byte. -/
def bracketStrip (h : List Char) : List Char :=
  if h.head? = some '[' ∧ h.getLast? = some ']' then (h.drop 1).dropLast else h

/-- splitHostPort from net/url: when the suffix after the last colon
consists only of digits, that suffix is the port and what precedes the
colon is the host; otherwise the whole string is the host.  Stated over
the reversed list: the maximal digit suffix, preceded by a colon, is
the port.  The bracket strip applies to the host part in either case. -/
def splitHostPort (h : List Char) : List Char × List Char :=
  let rest := h.reverse.dropWhile isDigitC
  if rest.head? = some ':' then
    (bracketStrip (rest.drop 1).reverse, (h.reverse.takeWhile isDigitC).reverse)
  else
    (bracketStrip h, [])

/-- url.URL.Hostname(). -/
def hostname (h : List Char) : List Char := (splitHostPort h).1

/-- url.URL.Port(). -/
def port (h : List Char) : List Char := (splitHostPort h).2

/-- path.IsAbs: non-empty and starting with a slash. -/
def pathIsAbs (p : List Char) : Bool := decide (p.head? = some '/')

/-- The fields of net/url.URL that Canonicalize reads or writes.  The
`opq` field models URL.Opaque; the User field is a `*url.Userinfo`
pointer, `none` when nil. -/
structure URL where
  scheme : List Char
  opq : List Char
  user : Option (List Char)
  host : List Char
  path : List Char
  query : List Char
  fragment : List Char
  deriving DecidableEq, Repr

/-- Request from request.go, wrapping a URL. -/
structure Request where
  url : URL
  deriving DecidableEq, Repr

/-- Canonicalize from request.go: clear Opaque and User; if the
hostname is empty or the path is not absolute, report irrecoverable
(false) without applying defaults; otherwise default the scheme to
"gemini" when empty and append ":1965" to the host when the port is
empty, reporting true. -/
def canonicalize (r : Request) : Request × Bool :=
  let u0 : URL := { r.url with opq := [], user := none }
  if hostname u0.host = [] ∨ pathIsAbs u0.path = false then
    (⟨u0⟩, false)
  else
    let u1 : URL := if u0.scheme = [] then { u0 with scheme := "gemini".toList } else u0
    let u2 : URL := if port u1.host = [] then { u1 with host := u1.host ++ ":1965".toList } else u1
    (⟨u2⟩, true)

/-! Support lemmas for Canonicalize. -/

theorem splitHostPort_append_port (s : List Char) :
    splitHostPort (s ++ ":1965".toList) = (bracketStrip s, "1965".toList) := by
  unfold splitHostPort
  have hrev : (s ++ ":1965".toList).reverse =
      '5' :: '6' :: '9' :: '1' :: ':' :: s.reverse := by
    rw [show ":1965".toList = [':', '1', '9', '6', '5'] from rfl]
    simp
  rw [hrev]
  have hdw : List.dropWhile isDigitC ('5' :: '6' :: '9' :: '1' :: ':' :: s.reverse) =
      ':' :: s.reverse := by
    rw [List.dropWhile_cons_of_pos (by decide), List.dropWhile_cons_of_pos (by decide),
        List.dropWhile_cons_of_pos (by decide), List.dropWhile_cons_of_pos (by decide),
        List.dropWhile_cons_of_neg (by decide)]
  have htw : List.takeWhile isDigitC ('5' :: '6' :: '9' :: '1' :: ':' :: s.reverse) =
      ['5', '6', '9', '1'] := by
    rw [List.takeWhile_cons_of_pos (by decide), List.takeWhile_cons_of_pos (by decide),
        List.takeWhile_cons_of_pos (by decide), List.takeWhile_cons_of_pos (by decide),
        List.takeWhile_cons_of_neg (by decide)]
  rw [hdw, htw]
  dsimp only
  rw [if_pos (by simp)]
  simp

theorem bracketStrip_eq_nil (h : List Char) (he : bracketStrip h = []) :
    h = [] ∨ h = ['[', ']'] := by
  unfold bracketStrip at he
  split at he
  · rename_i hc
    obtain ⟨h1, h2⟩ := hc
    cases h with
    | nil => exact Or.inl rfl
    | cons a t =>
      simp at h1
      subst h1
      simp at he
      cases t with
      | nil => simp at h2
      | cons b t2 =>
        cases t2 with
        | nil =>
          simp at h2
          subst h2
          exact Or.inr rfl
        | cons c t3 =>
          simp [List.dropLast] at he
  · exact Or.inl he

theorem hostname_nil_of_bracketStrip_nil (h : List Char)
    (he : bracketStrip h = []) : hostname h = [] := by
  rcases bracketStrip_eq_nil h he with rfl | rfl
  · rfl
  · rfl

/-- A request whose stripped fields are already clear, whose scheme is
non-empty, whose hostname is non-empty, whose path is absolute and
whose port is non-empty is a fixpoint of Canonicalize. -/
theorem canonicalize_fixpoint (sc ho pa qu fr : List Char)
    (hsc : sc ≠ []) (hh : hostname ho ≠ []) (hp : pathIsAbs pa = true)
    (hport : port ho ≠ []) :
    canonicalize ⟨⟨sc, [], none, ho, pa, qu, fr⟩⟩ =
      (⟨⟨sc, [], none, ho, pa, qu, fr⟩⟩, true) := by
  unfold canonicalize
  dsimp only
  rw [if_neg (by
    intro hor
    rcases hor with hor | hor
    · exact hh hor
    · rw [hp] at hor; exact Bool.noConfusion hor)]
  rw [if_neg hsc, if_neg hport]

/-- Claim C9 (amended): Canonicalize is idempotent — a second
application returns the same request state and the same boolean — and a
single application always clears the user-info and the Opaque field;
when it returns true it has also defaulted an absent scheme to "gemini"
and appended ":1965" to a host with an absent port (when it returns
false, the defaults are not applied). -/
theorem claim_C9_canonicalize (r : Request) :
    canonicalize (canonicalize r).1 = canonicalize r ∧
    (canonicalize r).1.url.opq = [] ∧
    (canonicalize r).1.url.user = none ∧
    ((canonicalize r).2 = true →
      (r.url.scheme = [] → (canonicalize r).1.url.scheme = "gemini".toList) ∧
      (r.url.scheme ≠ [] → (canonicalize r).1.url.scheme = r.url.scheme) ∧
      (port r.url.host = [] →
        (canonicalize r).1.url.host = r.url.host ++ ":1965".toList) ∧
      (port r.url.host ≠ [] → (canonicalize r).1.url.host = r.url.host)) := by
  obtain ⟨⟨sc, op, us, ho, pa, qu, fr⟩⟩ := r
  by_cases hcond : hostname ho = [] ∨ pathIsAbs pa = false
  case pos =>
    have hc : canonicalize ⟨⟨sc, op, us, ho, pa, qu, fr⟩⟩ =
        (⟨⟨sc, [], none, ho, pa, qu, fr⟩⟩, false) := by
      unfold canonicalize
      dsimp only
      rw [if_pos hcond]
    rw [hc]
    refine ⟨?_, rfl, rfl, fun h => absurd h (by simp)⟩
    unfold canonicalize
    dsimp only
    rw [if_pos hcond]
  case neg =>
    push_neg at hcond
    obtain ⟨hh, hp⟩ := hcond
    have hp2 : pathIsAbs pa = true := by
      cases hpa : pathIsAbs pa
      · exact absurd hpa hp
      · rfl
    have hfix := canonicalize_fixpoint
    by_cases hsc : sc = [] <;> by_cases hpo : port ho = []
    · -- scheme absent, port absent
      have hc : canonicalize ⟨⟨sc, op, us, ho, pa, qu, fr⟩⟩ =
          (⟨⟨"gemini".toList, [], none, ho ++ ":1965".toList, pa, qu, fr⟩⟩,
           true) := by
        unfold canonicalize
        dsimp only
        rw [if_neg (by
          intro hor
          rcases hor with hor | hor
          · exact hh hor
          · rw [hp2] at hor; exact Bool.noConfusion hor)]
        rw [if_pos hsc]
        dsimp only
        rw [if_pos hpo]
      have hhost2 : hostname (ho ++ ":1965".toList) = bracketStrip ho := by
        unfold hostname
        rw [splitHostPort_append_port]
      have hport2 : port (ho ++ ":1965".toList) = "1965".toList := by
        unfold port
        rw [splitHostPort_append_port]
      rw [hc]
      refine ⟨?_, rfl, rfl, fun _ => ⟨fun _ => rfl, fun hn => absurd hsc hn,
        fun _ => rfl, fun hn => absurd hpo hn⟩⟩
      exact hfix _ _ _ _ _ (by decide)
        (by rw [hhost2]; intro hb; exact hh (hostname_nil_of_bracketStrip_nil ho hb))
        hp2 (by rw [hport2]; decide)
    · -- scheme absent, port present
      have hc : canonicalize ⟨⟨sc, op, us, ho, pa, qu, fr⟩⟩ =
          (⟨⟨"gemini".toList, [], none, ho, pa, qu, fr⟩⟩, true) := by
        unfold canonicalize
        dsimp only
        rw [if_neg (by
          intro hor
          rcases hor with hor | hor
          · exact hh hor
          · rw [hp2] at hor; exact Bool.noConfusion hor)]
        rw [if_pos hsc]
        dsimp only
        rw [if_neg hpo]
      rw [hc]
      refine ⟨?_, rfl, rfl, fun _ => ⟨fun _ => rfl, fun hn => absurd hsc hn,
        fun habs => absurd habs hpo, fun _ => rfl⟩⟩
      exact hfix _ _ _ _ _ (by decide) hh hp2 hpo
    · -- scheme present, port absent
      have hc : canonicalize ⟨⟨sc, op, us, ho, pa, qu, fr⟩⟩ =
          (⟨⟨sc, [], none, ho ++ ":1965".toList, pa, qu, fr⟩⟩, true) := by
        unfold canonicalize
        dsimp only
        rw [if_neg (by
          intro hor
          rcases hor with hor | hor
          · exact hh hor
          · rw [hp2] at hor; exact Bool.noConfusion hor)]
        rw [if_neg hsc]
        dsimp only
        rw [if_pos hpo]
      have hhost2 : hostname (ho ++ ":1965".toList) = bracketStrip ho := by
        unfold hostname
        rw [splitHostPort_append_port]
      have hport2 : port (ho ++ ":1965".toList) = "1965".toList := by
        unfold port
        rw [splitHostPort_append_port]
      rw [hc]
      refine ⟨?_, rfl, rfl, fun _ => ⟨fun habs => absurd habs hsc, fun _ => rfl,
        fun _ => rfl, fun hn => absurd hpo hn⟩⟩
      exact hfix _ _ _ _ _ hsc
        (by rw [hhost2]; intro hb; exact hh (hostname_nil_of_bracketStrip_nil ho hb))
        hp2 (by rw [hport2]; decide)
    · -- scheme present, port present
      have hc : canonicalize ⟨⟨sc, op, us, ho, pa, qu, fr⟩⟩ =
          (⟨⟨sc, [], none, ho, pa, qu, fr⟩⟩, true) := by
        unfold canonicalize
        dsimp only
        rw [if_neg (by
          intro hor
          rcases hor with hor | hor
          · exact hh hor
          · rw [hp2] at hor; exact Bool.noConfusion hor)]
        rw [if_neg hsc]
        dsimp only
        rw [if_neg hpo]
      rw [hc]
      refine ⟨?_, rfl, rfl, fun _ => ⟨fun habs => absurd habs hsc, fun _ => rfl,
        fun habs => absurd habs hpo, fun _ => rfl⟩⟩
      exact hfix _ _ _ _ _ hsc hh hp2 hpo

/-- Claim C9 counterexample: on a request with an empty scheme, host
"h" and an empty (non-absolute) path, Canonicalize returns false and
does NOT fill in the absent scheme — the unconditional "fills in the
scheme when absent" part of the claim fails for irrecoverable
requests. -/
theorem claim_C9_counterexample :
    (canonicalize ⟨⟨[], [], none, ['h'], [], [], []⟩⟩).2 = false ∧
    (canonicalize ⟨⟨[], [], none, ['h'], [], [], []⟩⟩).1.url.scheme = [] := by
  refine ⟨by decide, by decide⟩

/-- Claim C9 witness: a concrete request with user-info, an Opaque
part, no scheme and no port is stripped, defaulted and idempotent. -/
theorem claim_C9_witness :
    canonicalize (canonicalize
      ⟨⟨[], ['x'], some ['u'], "example.org".toList, ['/', 'a'], [], []⟩⟩).1 =
      canonicalize
        ⟨⟨[], ['x'], some ['u'], "example.org".toList, ['/', 'a'], [], []⟩⟩ ∧
    (canonicalize
      ⟨⟨[], ['x'], some ['u'], "example.org".toList, ['/', 'a'], [], []⟩⟩).1.url.opq
      = [] ∧
    (canonicalize
      ⟨⟨[], ['x'], some ['u'], "example.org".toList, ['/', 'a'], [], []⟩⟩).1.url.user
      = none ∧
    (canonicalize
      ⟨⟨[], ['x'], some ['u'], "example.org".toList, ['/', 'a'], [], []⟩⟩).1.url.scheme
      = "gemini".toList ∧
    (canonicalize
      ⟨⟨[], ['x'], some ['u'], "example.org".toList, ['/', 'a'], [], []⟩⟩).1.url.host
      = "example.org".toList ++ ":1965".toList := by
  have h := claim_C9_canonicalize
    ⟨⟨[], ['x'], some ['u'], "example.org".toList, ['/', 'a'], [], []⟩⟩
  have h4 := h.2.2.2 (by decide)
  exact ⟨h.1, h.2.1, h.2.2.1, h4.1 rfl, h4.2.2.1 (by decide)⟩

end Req
